import Mathlib

/-!
Shallow embedding of the fishing-zone editor's fish-pool selection component
(the `zones` admin page script): per-dialog selection state, candidate-list
filtering, selected-list rendering, stats synchronisation, rarity header
tri-state checkboxes, and the form submit guard on the rarity distribution.

DOM state is modelled explicitly: every `.fish-item` row of the candidate
list (`#totalFishList`) carries its dataset (`data-fish-id`, `data-name`,
`data-rarity`, `data-value`), its inline `style.display` visibility and its
checkbox state; the selected list (`#selectedFishList`) rows likewise.  The
hidden `specific_fish_ids` input stores `Array.from(set).join(',')`; since
the join of decimal ids is injective we model its value by the id list
itself.  JavaScript `Set` objects are modelled as insertion-ordered
duplicate-free lists.
-/

namespace ZoneFishSelection

/-- A fish catalog entry, as rendered into a candidate row's dataset
(`data-fish-id`, `data-name`, `data-rarity`, `data-value` = `base_value`). -/
structure FishData where
  fishId : Nat
  name : String
  rarity : Nat
  baseValue : Int
deriving DecidableEq, Repr

/-- A candidate `.fish-item` row inside `#totalFishList`: its dataset plus the
mutable DOM state (`style.display` visibility, checkbox `checked`). -/
@[ext]
structure TotalItem where
  fish : FishData
  visible : Bool
  checked : Bool
deriving DecidableEq, Repr

/-- A `.fish-item` row inside `#selectedFishList`: dataset copied from the
catalog row at creation, plus its checkbox and visibility state. -/
@[ext]
structure SelItem where
  fishId : Nat
  rarity : Nat
  value : Int
  name : String
  checked : Bool
  visible : Bool
deriving DecidableEq, Repr

/-- The per-dialog state: the candidate list, the per-container selected-id
`Set` (insertion-ordered, duplicate-free list), the rendered selected list,
the rarity header checkboxes (`#rarity-<r>`: rarity, checked, indeterminate),
the filter inputs, and the displayed/serialized outputs kept in sync by
`updateSelectedStats` / `filterFishOptions`. -/
@[ext]
structure Container where
  totalItems : List TotalItem
  selectedSet : List Nat
  selectedItems : List SelItem
  rarityHeaders : List (Nat × Bool × Bool)
  searchTerm : String
  rarityFilterVal : String
  selectedCountText : Nat
  totalValueText : Int
  hiddenIds : List Nat
  totalFishCountText : Nat
  emptyMsgVisible : Bool
deriving DecidableEq, Repr

/-- `Set.add`: JavaScript sets ignore an element already present and append a
new element at the end of the insertion order. -/
def setAdd (s : List Nat) (x : Nat) : List Nat :=
  if s.contains x then s else s ++ [x]

/-- `Set.delete`: removes the element, keeping the order of the others. -/
def setDelete (s : List Nat) (x : Nat) : List Nat :=
  s.filter (fun y => y != x)

/-- The candidate rows' datasets: each row was rendered from one catalog
entry, and none of the selection operations rewrites a dataset. -/
def catalog (c : Container) : List FishData :=
  c.totalItems.map (fun it => it.fish)

/-- The fish ids present in the candidate list. -/
def catalogIds (c : Container) : List Nat :=
  (catalog c).map (fun f => f.fishId)

/-- `String.prototype.toLowerCase`, modelled as a character-wise lowering
of the string's character list. -/
def strToLower (s : String) : String :=
  ⟨s.data.map Char.toLower⟩

/-- `String.prototype.includes`: the pattern occurs as a contiguous
substring (the empty pattern always occurs). -/
def strIncludes (s pat : String) : Bool :=
  (List.range (s.data.length + 1)).any (fun i => pat.data.isPrefixOf (s.data.drop i))

/-- The visibility predicate of `filterFishOptions`:
`(name.toLowerCase().includes(searchTerm) || !searchTerm) &&
 (dataset.rarity === rarity || !rarity) && !selectedSet.has(fishId)`,
where `searchTerm` is the lowercased search box value and `rarityFilterVal`
is the raw `<select>` value (`""` = all rarities). -/
def visPred (sel : List Nat) (searchRaw rarityFilterVal : String) (f : FishData) : Bool :=
  let searchTerm := strToLower searchRaw
  ((strIncludes (strToLower f.name) searchTerm) || searchTerm == "") &&
  ((toString f.rarity == rarityFilterVal) || rarityFilterVal == "") &&
  !(sel.contains f.fishId)

/-- `filterFishOptions`: recomputes every candidate row's `style.display` and
writes the number of visible rows into `#totalFishCount`. -/
def filterFishOptions (c : Container) : Container :=
  let newItems := c.totalItems.map (fun it =>
    { it with visible := visPred c.selectedSet c.searchTerm c.rarityFilterVal it.fish })
  { c with
    totalItems := newItems,
    totalFishCountText := (newItems.filter (fun it => it.visible)).length }

/-- `updateSelectedStats`: writes `#selectedCount` (set size), `#totalValue`
(sum of the selected rows' `data-value`), toggles `#emptySelectedMessage`,
serializes the set into the hidden `specific_fish_ids` input, defensively
forces every selected row visible, and recounts `#totalFishCount`. -/
def updateSelectedStats (c : Container) : Container :=
  let count := c.selectedSet.length
  { c with
    selectedCountText := count,
    totalValueText := (c.selectedItems.map (fun it => it.value)).sum,
    emptyMsgVisible := count == 0,
    hiddenIds := c.selectedSet,
    selectedItems := c.selectedItems.map (fun it => { it with visible := true }),
    totalFishCountText := (c.totalItems.filter (fun it => it.visible)).length }

/-- The selected row built by `_addFishToSelected_internal` from a candidate
row's dataset: fresh node, unchecked, `style.display = ''`. -/
def mkSelItem (f : FishData) : SelItem :=
  { fishId := f.fishId, rarity := f.rarity, value := f.baseValue,
    name := f.name, checked := false, visible := true }

/-- `_addFishToSelected_internal`: no-op when the id is already selected;
otherwise adds the id to the set, and — only when a candidate row with that
`data-fish-id` exists — appends a fresh row to `#selectedFishList` built
from the first such candidate row's dataset. -/
def addFishToSelectedInternal (fishId : Nat) (c : Container) : Container :=
  if c.selectedSet.contains fishId then c
  else
    let c1 := { c with selectedSet := c.selectedSet ++ [fishId] }
    match (catalog c).find? (fun f => f.fishId == fishId) with
    | none => c1
    | some f => { c1 with selectedItems := c1.selectedItems ++ [mkSelItem f] }

/-- `addFishToSelected`: internal add, then `updateSelectedStats`, then the
dispatched `keyup` event re-runs `filterFishOptions`. -/
def addFishToSelected (fishId : Nat) (c : Container) : Container :=
  filterFishOptions (updateSelectedStats (addFishToSelectedInternal fishId c))

/-- Removes the first selected row whose `data-fish-id` matches
(`querySelector` + `remove()`); no row, no change. -/
def removeFirstById : List SelItem → Nat → List SelItem
  | [], _ => []
  | it :: rest, x => if it.fishId == x then rest else it :: removeFirstById rest x

/-- `removeFishFromSelected`: early return when the id is not selected;
otherwise deletes it from the set, removes its rendered row, then
`updateSelectedStats` and the dispatched `keyup` re-filter. -/
def removeFishFromSelected (fishId : Nat) (c : Container) : Container :=
  if c.selectedSet.contains fishId then
    let c1 := { c with
      selectedSet := setDelete c.selectedSet fishId,
      selectedItems := removeFirstById c.selectedItems fishId }
    filterFishOptions (updateSelectedStats c1)
  else c

/-- `clearAllSelected`: snapshots the set (`[...selectedSet]`) and removes
each id in turn. -/
def clearAllSelected (c : Container) : Container :=
  c.selectedSet.foldl (fun acc id => removeFishFromSelected id acc) c

/-- `initializeSelectedFish`: clears the set, resets `#selectedFishList` to
the empty message, makes every candidate row visible and unchecked, resets
every rarity header checkbox, re-adds each given id via
`_addFishToSelected_internal`, then `updateSelectedStats` and the `keyup`
re-filter. -/
def initializeSelectedFish (ids : List Nat) (c : Container) : Container :=
  let c1 := { c with
    selectedSet := [],
    selectedItems := [],
    emptyMsgVisible := true,
    totalItems := c.totalItems.map (fun it => { it with visible := true, checked := false }),
    rarityHeaders := c.rarityHeaders.map (fun h => (h.1, false, false)) }
  let c2 := ids.foldl (fun acc id => addFishToSelectedInternal id acc) c1
  filterFishOptions (updateSelectedStats c2)

/-- The candidate rows of one rarity that are not hidden
(`.fish-item[data-rarity='r']:not([style*='display: none'])`). -/
def visibleOfRarity (c : Container) (rarity : Nat) : List TotalItem :=
  c.totalItems.filter (fun it => it.fish.rarity == rarity && it.visible)

/-- The body of `updateRarityCheckboxState`: from the visible rows of the
rarity (`items`) and the checked ones among them (`checkedItems`), the
header's `(checked, indeterminate)` pair.  With no visible row both are
`false`. -/
def headerStateFor (c : Container) (rarity : Nat) : Bool × Bool :=
  if (visibleOfRarity c rarity).length > 0 then
    ((visibleOfRarity c rarity).length ==
       ((visibleOfRarity c rarity).filter (fun it => it.checked)).length,
     decide (((visibleOfRarity c rarity).filter (fun it => it.checked)).length > 0) &&
       decide (((visibleOfRarity c rarity).filter (fun it => it.checked)).length <
         (visibleOfRarity c rarity).length))
  else (false, false)

/-- `updateRarityCheckboxState`: writes `headerStateFor` into the
`#rarity-<r>` checkbox when that header exists (`querySelector` returns
null otherwise, an early return). -/
def updateRarityCheckboxState (rarity : Nat) (c : Container) : Container :=
  if (c.rarityHeaders.find? (fun h => h.1 == rarity)).isSome then
    { c with rarityHeaders := c.rarityHeaders.map (fun h =>
        if h.1 == rarity then (h.1, headerStateFor c rarity) else h) }
  else c

/-- The `(checked, indeterminate)` state of the `#rarity-<r>` header
checkbox, `none` when the header does not exist. -/
def headerFor (c : Container) (rarity : Nat) : Option (Bool × Bool) :=
  (c.rarityHeaders.find? (fun h => h.1 == rarity)).map (fun h => h.2)

/-!
The form submit handler (`hookFormHandlers`).  Numeric inputs are modelled
by their parse results: `parseFloat`/`parseInt` give `none` for an empty or
unparseable string (`NaN`), `some v` otherwise; JavaScript's `|| d`
fallback then also maps a parsed `0` to the default, which `jsOr` mirrors.
JavaScript numbers are modelled as exact rationals.
-/

/-- `parsed || d` on a `parseInt`/`parseFloat` result: `NaN` and `0` are
falsy, so both fall back to the default. -/
def jsOr (o : Option Int) (d : Int) : Int :=
  match o with
  | none => d
  | some v => if v = 0 then d else v

/-- `parseFloat(x) || 0` on a rarity input. -/
def jsOrZero (o : Option ℚ) : ℚ :=
  match o with
  | none => 0
  | some v => v

/-- The zone form's input fields, each numeric one as its parse result. -/
structure FormState where
  idInput : Option Int
  nameInput : String
  descriptionInput : String
  dailyRareFishQuota : Option Int
  fishingCost : Option Int
  isActive : Bool
  limitTime : Bool
  availableFrom : String
  availableUntil : String
  rarityInputs : List (Option ℚ)
  requiresPass : Bool
  requiredItemId : Option Int
deriving DecidableEq, Repr

/-- The JSON payload the submit handler builds for the zones API. -/
structure ZonePayload where
  id : Option Int
  name : String
  description : String
  dailyRareFishQuota : Int
  fishingCost : Int
  isActive : Bool
  availableFrom : String
  availableUntil : String
  rarityDistribution : List ℚ
  specificFishIds : List Nat
  requiresPass : Bool
  requiredItemId : Option Int
deriving DecidableEq, Repr

/-- What the submit handler does after `e.preventDefault()`: either it shows
a client-side error and returns, or it issues exactly one API request. -/
inductive SubmitResult where
  | clientError (message : String)
  | request (url : String) (methodIsPut : Bool) (payload : ZonePayload)
deriving DecidableEq, Repr

/-- The submit handler of `hookFormHandlers`: builds the payload from the
form, sums the six rarity-distribution inputs (`parseFloat(..) || 0`), and
when the sum deviates from 1 by more than `1e-4` shows the error and
returns before the `fetch`; otherwise completes the payload (selected set,
pass requirement) and issues the request.  Returns the result together
with the untouched container and form state. -/
def handleSubmit (zoneId : Option Nat) (fs : FormState) (c : Container) :
    SubmitResult × Container × FormState :=
  let availableFrom := if fs.limitTime then fs.availableFrom else ""
  let availableUntil := if fs.limitTime then fs.availableUntil else ""
  let rarityDistribution := fs.rarityInputs.map jsOrZero
  if (1 : ℚ) / 10000 < |rarityDistribution.sum - 1| then
    (SubmitResult.clientError "稀有度分布总和必须为 1", c, fs)
  else
    let payload : ZonePayload :=
      { id := fs.idInput,
        name := fs.nameInput,
        description := fs.descriptionInput,
        dailyRareFishQuota := jsOr fs.dailyRareFishQuota 0,
        fishingCost := jsOr fs.fishingCost 10,
        isActive := fs.isActive,
        availableFrom := availableFrom,
        availableUntil := availableUntil,
        rarityDistribution := rarityDistribution,
        specificFishIds := c.selectedSet,
        requiresPass := fs.requiresPass,
        requiredItemId := if fs.requiresPass then
            (match fs.requiredItemId with
             | none => none
             | some v => if v = 0 then none else some v)
          else none }
    match zoneId with
    | some zid => (SubmitResult.request ("/admin/api/zones/" ++ toString zid) true payload, c, fs)
    | none => (SubmitResult.request "/admin/api/zones" false payload, c, fs)

/-- The selection operations a dialog container exposes. -/
inductive Op where
  | add (fishId : Nat)
  | remove (fishId : Nat)
  | clear
  | init (ids : List Nat)
deriving DecidableEq, Repr

/-- Interpreting one operation on a container. -/
def runOp : Op → Container → Container
  | .add fishId, c => addFishToSelected fishId c
  | .remove fishId, c => removeFishFromSelected fishId c
  | .clear, c => clearAllSelected c
  | .init ids, c => initializeSelectedFish ids c

/-- Interpreting a sequence of operations, first one first. -/
def runOps (ops : List Op) (c : Container) : Container :=
  ops.foldl (fun acc op => runOp op acc) c

/-!
The per-container selection store: `containerToSelectedIds` is a `WeakMap`
from the dialog container to its `Set`; `getSelectedSet` creates the set on
first access.  Containers are identified by a `Nat` key; the store is the
association list of created sets, in creation order.
-/

/-- The `WeakMap` of per-container selected-id sets. -/
abbrev SelStore := List (Nat × List Nat)

/-- The set associated with a container, as `getSelectedSet` returns it: the
stored one, or a fresh empty set for a container seen for the first time. -/
def storeGet (store : SelStore) (k : Nat) : List Nat :=
  match store.find? (fun e => e.1 == k) with
  | some e => e.2
  | none => []

/-- Mutating one container's set through `getSelectedSet`: the stored set is
updated in place; a first access stores the mutated fresh set. -/
def storeModify (store : SelStore) (k : Nat) (f : List Nat → List Nat) : SelStore :=
  match store.find? (fun e => e.1 == k) with
  | some _ => store.map (fun e => if e.1 == k then (e.1, f e.2) else e)
  | none => store ++ [(k, f [])]

/-- The effect of each selection operation on the container's id set alone:
add appends when absent, remove deletes, clear removes a snapshot of the
set one id at a time, initialize clears and re-adds. -/
def setEffect : Op → List Nat → List Nat
  | .add fishId, s => setAdd s fishId
  | .remove fishId, s => setDelete s fishId
  | .clear, s => s.foldl (fun acc id => setDelete acc id) s
  | .init ids, _ => ids.foldl (fun acc id => setAdd acc id) []

/-- Running one selection operation against the store, on one container. -/
def storeRunOp (store : SelStore) (k : Nat) (op : Op) : SelStore :=
  storeModify store k (setEffect op)

/-!
Invariant infrastructure.  `renderModel` is the selected list the component
keeps rendered for a given set: one row per selected id that has a matching
catalog row, in set insertion order, skipping unknown ids.
-/

/-- The rendered rows for one selected id: one row copied from the first
matching catalog entry, or none when the id is unknown. -/
def renderOne (cat : List FishData) (id : Nat) : List SelItem :=
  ((cat.find? (fun f => f.fishId == id)).map mkSelItem).toList

/-- The rendered selected list determined by a catalog and a selected-id
list. -/
def renderModel (cat : List FishData) (ids : List Nat) : List SelItem :=
  ids.filterMap (fun id => (cat.find? (fun f => f.fishId == id)).map mkSelItem)

/-- The consistency invariant every dialog container satisfies from
`initializeSelectedFish` on: the set is duplicate-free, the rendered
selected list is exactly the set's rendering, and every displayed or
serialized output agrees with the state it was recomputed from. -/
structure Inv (c : Container) : Prop where
  nodup : c.selectedSet.Nodup
  items : c.selectedItems = renderModel (catalog c) c.selectedSet
  hidden : c.hiddenIds = c.selectedSet
  count : c.selectedCountText = c.selectedSet.length
  total : c.totalValueText = (c.selectedItems.map (fun it => it.value)).sum
  empty : c.emptyMsgVisible = (c.selectedSet.length == 0)
  filterOk : ∀ it ∈ c.totalItems,
    it.visible = visPred c.selectedSet c.searchTerm c.rarityFilterVal it.fish
  fcount : c.totalFishCountText = (c.totalItems.filter (fun it => it.visible)).length

/-! Basic facts about the JavaScript `Set` model. -/

theorem contains_iff_mem (s : List Nat) (x : Nat) : s.contains x = true ↔ x ∈ s :=
  List.elem_iff

theorem setAdd_nodup {s : List Nat} (h : s.Nodup) (x : Nat) : (setAdd s x).Nodup := by
  unfold setAdd
  split
  · exact h
  · next hc =>
      simp only [contains_iff_mem] at hc
      simpa [List.nodup_append] using ⟨h, fun hm => hc (by simpa using hm)⟩

theorem mem_setAdd {s : List Nat} {x y : Nat} : y ∈ setAdd s x ↔ y ∈ s ∨ y = x := by
  unfold setAdd
  split
  · next hc =>
      simp only [contains_iff_mem] at hc
      constructor
      · exact fun h => Or.inl h
      · rintro (h | rfl)
        · exact h
        · exact hc
  · simp

theorem mem_setDelete {s : List Nat} {x y : Nat} : y ∈ setDelete s x ↔ y ∈ s ∧ y ≠ x := by
  simp [setDelete]

theorem setDelete_nodup {s : List Nat} (h : s.Nodup) (x : Nat) : (setDelete s x).Nodup :=
  List.Nodup.filter _ h

theorem setDelete_of_not_mem {s : List Nat} {x : Nat} (h : x ∉ s) : setDelete s x = s := by
  unfold setDelete
  refine List.filter_eq_self.mpr (fun y hy => ?_)
  have : y ≠ x := fun hx => h (hx ▸ hy)
  simpa using this

theorem mem_foldl_setAdd (l : List Nat) : ∀ (s : List Nat) (y : Nat),
    y ∈ l.foldl setAdd s ↔ y ∈ s ∨ y ∈ l := by
  induction l with
  | nil => simp
  | cons a t ih =>
      intro s y
      simp only [List.foldl_cons, ih, mem_setAdd, List.mem_cons]
      tauto

theorem nodup_foldl_setAdd (l : List Nat) : ∀ {s : List Nat}, s.Nodup →
    (l.foldl setAdd s).Nodup := by
  induction l with
  | nil => intro s h; exact h
  | cons a t ih => intro s h; exact ih (setAdd_nodup h a)

/-! Field-level facts about the operations. -/

theorem totalItems_updateSelectedStats (c : Container) :
    (updateSelectedStats c).totalItems = c.totalItems := rfl

theorem selectedSet_updateSelectedStats (c : Container) :
    (updateSelectedStats c).selectedSet = c.selectedSet := rfl

theorem selectedSet_filterFishOptions (c : Container) :
    (filterFishOptions c).selectedSet = c.selectedSet := rfl

theorem hiddenIds_filterFishOptions (c : Container) :
    (filterFishOptions c).hiddenIds = c.hiddenIds := rfl

theorem selectedItems_filterFishOptions (c : Container) :
    (filterFishOptions c).selectedItems = c.selectedItems := rfl

theorem catalog_filterFishOptions (c : Container) :
    catalog (filterFishOptions c) = catalog c := by
  simp [catalog, filterFishOptions, List.map_map]

theorem catalog_updateSelectedStats (c : Container) :
    catalog (updateSelectedStats c) = catalog c := rfl

theorem selectedSet_addInternal (x : Nat) (c : Container) :
    (addFishToSelectedInternal x c).selectedSet = setAdd c.selectedSet x := by
  unfold addFishToSelectedInternal setAdd
  split
  · rfl
  · split <;> rfl

theorem totalItems_addInternal (x : Nat) (c : Container) :
    (addFishToSelectedInternal x c).totalItems = c.totalItems := by
  unfold addFishToSelectedInternal
  split
  · rfl
  · split <;> rfl

theorem catalog_addInternal (x : Nat) (c : Container) :
    catalog (addFishToSelectedInternal x c) = catalog c := by
  simp [catalog, totalItems_addInternal]

theorem searchTerm_addInternal (x : Nat) (c : Container) :
    (addFishToSelectedInternal x c).searchTerm = c.searchTerm := by
  unfold addFishToSelectedInternal
  split
  · rfl
  · split <;> rfl

theorem rarityFilterVal_addInternal (x : Nat) (c : Container) :
    (addFishToSelectedInternal x c).rarityFilterVal = c.rarityFilterVal := by
  unfold addFishToSelectedInternal
  split
  · rfl
  · split <;> rfl

theorem selectedItems_addInternal (x : Nat) (c : Container) :
    (addFishToSelectedInternal x c).selectedItems =
      if c.selectedSet.contains x then c.selectedItems
      else c.selectedItems ++ renderOne (catalog c) x := by
  unfold addFishToSelectedInternal renderOne
  split
  · rfl
  · cases h : (catalog c).find? (fun f => f.fishId == x) <;> simp [h]

/-! Facts about `renderModel`. -/

theorem renderModel_nil (cat : List FishData) : renderModel cat [] = [] := rfl

theorem renderModel_append (cat : List FishData) (l₁ l₂ : List Nat) :
    renderModel cat (l₁ ++ l₂) = renderModel cat l₁ ++ renderModel cat l₂ := by
  simp [renderModel]

theorem renderModel_singleton (cat : List FishData) (x : Nat) :
    renderModel cat [x] = renderOne cat x := by
  unfold renderModel renderOne
  cases h : cat.find? (fun f => f.fishId == x) <;> simp [h]

theorem fishId_of_mem_renderOne {cat : List FishData} {x : Nat} {it : SelItem}
    (h : it ∈ renderOne cat x) : it.fishId = x := by
  unfold renderOne at h
  cases hf : cat.find? (fun f => f.fishId == x) with
  | none => rw [hf] at h; simp at h
  | some f =>
      rw [hf] at h
      simp at h
      subst h
      have hp := List.find?_some hf
      simpa [mkSelItem] using hp

theorem mem_renderModel {cat : List FishData} {l : List Nat} {it : SelItem}
    (h : it ∈ renderModel cat l) : it.fishId ∈ l ∧ it.fishId ∈ cat.map (fun f => f.fishId) ∧
      it.visible = true := by
  unfold renderModel at h
  obtain ⟨id, hid, hmap⟩ := List.mem_filterMap.mp h
  cases hf : cat.find? (fun f => f.fishId == id) with
  | none => rw [hf] at hmap; simp at hmap
  | some f =>
      have hp := List.find?_some hf
      have hmem := List.mem_of_find?_eq_some hf
      rw [hf] at hmap
      simp at hmap
      subst hmap
      have hfid : f.fishId = id := by simpa using hp
      refine ⟨by simpa [mkSelItem, hfid] using hid, ?_, rfl⟩
      exact List.mem_map.mpr ⟨f, hmem, by simp [mkSelItem]⟩

theorem visible_of_mem_renderModel {cat : List FishData} {l : List Nat} {it : SelItem}
    (h : it ∈ renderModel cat l) : it.visible = true :=
  (mem_renderModel h).2.2

theorem removeFirstById_of_not_mem : ∀ {items : List SelItem} {x : Nat},
    (∀ it ∈ items, it.fishId ≠ x) → removeFirstById items x = items := by
  intro items
  induction items with
  | nil => intro x _; rfl
  | cons it rest ih =>
      intro x h
      have hne : it.fishId ≠ x := h it (List.mem_cons_self it rest)
      simp only [removeFirstById]
      rw [if_neg (by simpa using hne), ih (fun j hj => h j (List.mem_cons_of_mem it hj))]

theorem removeFirstById_append_of_not_mem {l₁ l₂ : List SelItem} {x : Nat}
    (h : ∀ it ∈ l₁, it.fishId ≠ x) :
    removeFirstById (l₁ ++ l₂) x = l₁ ++ removeFirstById l₂ x := by
  induction l₁ with
  | nil => rfl
  | cons it rest ih =>
      have hne : it.fishId ≠ x := h it (List.mem_cons_self it rest)
      simp only [List.cons_append, removeFirstById, List.append_eq]
      rw [if_neg (by simpa using hne), ih (fun j hj => h j (List.mem_cons_of_mem it hj))]

/-- Removing the first rendered row of an id agrees with rendering the set
with the id deleted, for duplicate-free id lists. -/
theorem removeFirstById_renderModel (cat : List FishData) :
    ∀ {l : List Nat} (x : Nat), l.Nodup →
      removeFirstById (renderModel cat l) x = renderModel cat (setDelete l x) := by
  intro l
  induction l with
  | nil => intro x _; rfl
  | cons a t ih =>
      intro x hnd
      have hat : a ∉ t := (List.nodup_cons.mp hnd).1
      have hndt : t.Nodup := (List.nodup_cons.mp hnd).2
      have hsplit : renderModel cat (a :: t) = renderOne cat a ++ renderModel cat t := by
        have := renderModel_append cat [a] t
        simpa [renderModel_singleton] using this
      by_cases hax : a = x
      · subst hax
        have hdel : setDelete (a :: t) a = t := by
          have : setDelete t a = t := setDelete_of_not_mem hat
          simp [setDelete] at this ⊢
          exact this
        rw [hsplit, hdel]
        cases hone : renderOne cat a with
        | nil =>
            simp only [List.nil_append]
            exact removeFirstById_of_not_mem (fun it hit =>
              fun hid => hat (hid ▸ (mem_renderModel hit).1))
        | cons j rest =>
            have hj : j.fishId = a := fishId_of_mem_renderOne (by rw [hone]; exact List.mem_cons_self j rest)
            have hrest : rest = [] := by
              unfold renderOne at hone
              cases hf : cat.find? (fun f => f.fishId == a) with
              | none => rw [hf] at hone; simp at hone
              | some f => rw [hf] at hone; simp at hone; exact hone.2
            subst hrest
            simp only [List.cons_append, removeFirstById, List.nil_append]
            rw [if_pos (by simpa using hj)]
            simp
      · have hdel : setDelete (a :: t) x = a :: setDelete t x := by
          simp [setDelete, List.filter_cons, hax]
        rw [hsplit, hdel]
        have hsplit2 : renderModel cat (a :: setDelete t x) =
            renderOne cat a ++ renderModel cat (setDelete t x) := by
          have := renderModel_append cat [a] (setDelete t x)
          simpa [renderModel_singleton] using this
        rw [hsplit2]
        rw [removeFirstById_append_of_not_mem (fun it hit => by
          rw [fishId_of_mem_renderOne hit]; exact hax)]
        rw [ih x hndt]

/-! Re-establishing the invariant: `updateSelectedStats` followed by the
dispatched `keyup` re-filter makes every displayed output consistent, as
long as the structural state (set and rendered list) already agrees. -/

theorem selItem_visible_eta {it : SelItem} (h : it.visible = true) :
    ({ it with visible := true } : SelItem) = it := by
  cases it
  simp_all

theorem map_visible_renderModel (cat : List FishData) (l : List Nat) :
    (renderModel cat l).map (fun it => { it with visible := true }) = renderModel cat l := by
  have : ∀ it ∈ renderModel cat l,
      ({ it with visible := true } : SelItem) = it :=
    fun it hit => selItem_visible_eta (visible_of_mem_renderModel hit)
  calc (renderModel cat l).map (fun it => { it with visible := true })
      = (renderModel cat l).map id := List.map_congr_left this
    _ = renderModel cat l := List.map_id _

theorem inv_sync {c : Container} (hnd : c.selectedSet.Nodup)
    (hitems : c.selectedItems = renderModel (catalog c) c.selectedSet) :
    Inv (filterFishOptions (updateSelectedStats c)) := by
  have hmapitems : (updateSelectedStats c).selectedItems = c.selectedItems := by
    simp only [updateSelectedStats, hitems]
    exact map_visible_renderModel _ _
  refine ⟨?_, ?_, ?_, ?_, ?_, ?_, ?_, ?_⟩
  · exact hnd
  · show (updateSelectedStats c).selectedItems =
      renderModel (catalog (filterFishOptions (updateSelectedStats c))) c.selectedSet
    rw [hmapitems, catalog_filterFishOptions, catalog_updateSelectedStats]
    exact hitems
  · rfl
  · rfl
  · show (updateSelectedStats c).totalValueText =
      ((updateSelectedStats c).selectedItems.map (fun it => it.value)).sum
    rw [hmapitems]
    rfl
  · rfl
  · intro it hit
    simp only [filterFishOptions, List.mem_map] at hit
    obtain ⟨j, hj, rfl⟩ := hit
    rfl
  · rfl


/-! The invariant is established by `initializeSelectedFish` and preserved
by every selection operation. -/

theorem inv_internal_struct {c : Container} (hnd : c.selectedSet.Nodup)
    (hitems : c.selectedItems = renderModel (catalog c) c.selectedSet) (x : Nat) :
    (addFishToSelectedInternal x c).selectedSet.Nodup ∧
      (addFishToSelectedInternal x c).selectedItems =
        renderModel (catalog (addFishToSelectedInternal x c))
          (addFishToSelectedInternal x c).selectedSet := by
  rw [selectedSet_addInternal, selectedItems_addInternal, catalog_addInternal]
  refine ⟨setAdd_nodup hnd x, ?_⟩
  by_cases hcon : c.selectedSet.contains x = true
  · rw [if_pos hcon]
    unfold setAdd
    rw [if_pos hcon]
    exact hitems
  · rw [if_neg hcon]
    unfold setAdd
    rw [if_neg hcon]
    rw [renderModel_append, renderModel_singleton, hitems]

theorem foldInternal_struct (ids : List Nat) : ∀ (c : Container), c.selectedSet.Nodup →
    c.selectedItems = renderModel (catalog c) c.selectedSet →
    (ids.foldl (fun acc id => addFishToSelectedInternal id acc) c).selectedSet.Nodup ∧
      (ids.foldl (fun acc id => addFishToSelectedInternal id acc) c).selectedItems =
        renderModel
          (catalog (ids.foldl (fun acc id => addFishToSelectedInternal id acc) c))
          (ids.foldl (fun acc id => addFishToSelectedInternal id acc) c).selectedSet := by
  induction ids with
  | nil => intro c hnd hitems; exact ⟨hnd, hitems⟩
  | cons a t ih =>
      intro c hnd hitems
      have h1 := inv_internal_struct hnd hitems a
      simpa using ih (addFishToSelectedInternal a c) h1.1 h1.2

theorem inv_addFishToSelected {c : Container} (h : Inv c) (x : Nat) :
    Inv (addFishToSelected x c) := by
  unfold addFishToSelected
  have h1 := inv_internal_struct h.nodup h.items x
  exact inv_sync h1.1 h1.2

theorem inv_removeFishFromSelected {c : Container} (h : Inv c) (x : Nat) :
    Inv (removeFishFromSelected x c) := by
  unfold removeFishFromSelected
  split
  · exact inv_sync (setDelete_nodup h.nodup x)
      (by
        show removeFirstById c.selectedItems x = renderModel (catalog c) (setDelete c.selectedSet x)
        rw [h.items, removeFirstById_renderModel (catalog c) x h.nodup])
  · exact h

theorem inv_clearAllSelected {c : Container} (h : Inv c) : Inv (clearAllSelected c) := by
  unfold clearAllSelected
  generalize c.selectedSet = l
  induction l generalizing c with
  | nil => exact h
  | cons a t ih => exact ih (inv_removeFishFromSelected h a)

theorem inv_initializeSelectedFish (ids : List Nat) (c : Container) :
    Inv (initializeSelectedFish ids c) := by
  unfold initializeSelectedFish
  have h := foldInternal_struct ids
    { c with
      selectedSet := [],
      selectedItems := [],
      emptyMsgVisible := true,
      totalItems := c.totalItems.map (fun it => { it with visible := true, checked := false }),
      rarityHeaders := c.rarityHeaders.map (fun h => (h.1, false, false)) }
    (by simp) (by rfl)
  exact inv_sync h.1 h.2

theorem inv_runOp {c : Container} (h : Inv c) (op : Op) : Inv (runOp op c) := by
  cases op with
  | add fishId => exact inv_addFishToSelected h fishId
  | remove fishId => exact inv_removeFishFromSelected h fishId
  | clear => exact inv_clearAllSelected h
  | init ids => exact inv_initializeSelectedFish ids c

theorem inv_runOps (ops : List Op) : ∀ {c : Container}, Inv c → Inv (runOps ops c) := by
  induction ops with
  | nil => intro c h; exact h
  | cons op rest ih =>
      intro c h
      exact ih (inv_runOp h op)

/-! The catalog (the candidate rows' datasets) is untouched by every
selection operation, and the set evolves by the `Set` operations alone. -/

theorem catalog_addFishToSelected (x : Nat) (c : Container) :
    catalog (addFishToSelected x c) = catalog c := by
  rw [addFishToSelected, catalog_filterFishOptions, catalog_updateSelectedStats,
    catalog_addInternal]

theorem catalog_removeFishFromSelected (x : Nat) (c : Container) :
    catalog (removeFishFromSelected x c) = catalog c := by
  unfold removeFishFromSelected
  split
  · rw [catalog_filterFishOptions]
    rfl
  · rfl

theorem catalog_clearAllSelected (c : Container) :
    catalog (clearAllSelected c) = catalog c := by
  unfold clearAllSelected
  generalize c.selectedSet = l
  induction l generalizing c with
  | nil => rfl
  | cons a t ih =>
      simp only [List.foldl_cons]
      rw [ih (removeFishFromSelected a c), catalog_removeFishFromSelected]

theorem catalog_foldInternal (ids : List Nat) : ∀ (c : Container),
    catalog (ids.foldl (fun acc id => addFishToSelectedInternal id acc) c) = catalog c := by
  induction ids with
  | nil => intro c; rfl
  | cons a t ih =>
      intro c
      simp only [List.foldl_cons]
      rw [ih (addFishToSelectedInternal a c), catalog_addInternal]

theorem catalog_initializeSelectedFish (ids : List Nat) (c : Container) :
    catalog (initializeSelectedFish ids c) = catalog c := by
  unfold initializeSelectedFish
  rw [catalog_filterFishOptions, catalog_updateSelectedStats, catalog_foldInternal]
  simp [catalog, List.map_map]

theorem catalog_runOp (op : Op) (c : Container) : catalog (runOp op c) = catalog c := by
  cases op with
  | add fishId => exact catalog_addFishToSelected fishId c
  | remove fishId => exact catalog_removeFishFromSelected fishId c
  | clear => exact catalog_clearAllSelected c
  | init ids => exact catalog_initializeSelectedFish ids c

theorem catalog_runOps (ops : List Op) : ∀ (c : Container),
    catalog (runOps ops c) = catalog c := by
  induction ops with
  | nil => intro c; rfl
  | cons op rest ih =>
      intro c
      show catalog (runOps rest (runOp op c)) = catalog c
      rw [ih (runOp op c), catalog_runOp]

theorem selectedSet_addFishToSelected (x : Nat) (c : Container) :
    (addFishToSelected x c).selectedSet = setAdd c.selectedSet x := by
  rw [addFishToSelected, selectedSet_filterFishOptions, selectedSet_updateSelectedStats,
    selectedSet_addInternal]

theorem selectedSet_removeFishFromSelected (x : Nat) (c : Container) :
    (removeFishFromSelected x c).selectedSet = setDelete c.selectedSet x := by
  unfold removeFishFromSelected
  split
  · rfl
  · next hcon =>
      have : x ∉ c.selectedSet := by
        intro hm
        exact hcon ((contains_iff_mem c.selectedSet x).mpr hm)
      rw [setDelete_of_not_mem this]

theorem mem_foldl_remove {y : Nat} : ∀ (l : List Nat) (c : Container),
    y ∈ (l.foldl (fun acc id => removeFishFromSelected id acc) c).selectedSet →
      y ∈ c.selectedSet := by
  intro l
  induction l with
  | nil => intro c h; exact h
  | cons a t ih =>
      intro c h
      have := ih (removeFishFromSelected a c) h
      rw [selectedSet_removeFishFromSelected] at this
      exact (mem_setDelete.mp this).1

theorem mem_selectedSet_clearAll {y : Nat} {c : Container}
    (h : y ∈ (clearAllSelected c).selectedSet) : y ∈ c.selectedSet :=
  mem_foldl_remove c.selectedSet c h

theorem selectedSet_foldInternal (ids : List Nat) : ∀ (c : Container),
    (ids.foldl (fun acc id => addFishToSelectedInternal id acc) c).selectedSet =
      ids.foldl setAdd c.selectedSet := by
  induction ids with
  | nil => intro c; rfl
  | cons a t ih =>
      intro c
      simp only [List.foldl_cons]
      rw [ih (addFishToSelectedInternal a c), selectedSet_addInternal]

theorem selectedSet_initializeSelectedFish (ids : List Nat) (c : Container) :
    (initializeSelectedFish ids c).selectedSet = ids.foldl setAdd [] := by
  unfold initializeSelectedFish
  rw [selectedSet_filterFishOptions, selectedSet_updateSelectedStats, selectedSet_foldInternal]

/-! On a consistent container, recomputing the stats and re-running the
filter change nothing. -/

theorem totalItem_visible_eta {it : TotalItem} {b : Bool} (h : it.visible = b) :
    ({ it with visible := b } : TotalItem) = it := by
  cases it
  simp_all

theorem updateSelectedStats_of_inv {c : Container} (h : Inv c) :
    updateSelectedStats c = c := by
  have hitems : c.selectedItems.map (fun it => { it with visible := true }) = c.selectedItems := by
    rw [h.items]
    exact map_visible_renderModel _ _
  ext1
  · exact totalItems_updateSelectedStats c
  · exact selectedSet_updateSelectedStats c
  · exact hitems
  · rfl
  · rfl
  · rfl
  · exact h.count.symm
  · exact h.total.symm
  · exact h.hidden.symm
  · exact h.fcount.symm
  · exact h.empty.symm

theorem totalFishCountText_filterFishOptions (c : Container) :
    (filterFishOptions c).totalFishCountText =
      ((c.totalItems.map (fun it =>
        { it with visible := visPred c.selectedSet c.searchTerm c.rarityFilterVal it.fish })).filter
          (fun it => it.visible)).length := rfl

theorem filterFishOptions_of_inv {c : Container} (h : Inv c) :
    filterFishOptions c = c := by
  have hitems : c.totalItems.map (fun it =>
      { it with visible := visPred c.selectedSet c.searchTerm c.rarityFilterVal it.fish }) =
        c.totalItems := by
    have hcong : ∀ it ∈ c.totalItems,
        ({ it with visible := visPred c.selectedSet c.searchTerm c.rarityFilterVal it.fish } :
          TotalItem) = it :=
      fun it hit => totalItem_visible_eta (h.filterOk it hit)
    calc c.totalItems.map (fun it =>
        { it with visible := visPred c.selectedSet c.searchTerm c.rarityFilterVal it.fish })
        = c.totalItems.map id := List.map_congr_left hcong
      _ = c.totalItems := List.map_id _
  ext1
  · exact hitems
  · rfl
  · rfl
  · rfl
  · rfl
  · rfl
  · rfl
  · rfl
  · rfl
  · rw [totalFishCountText_filterFishOptions, hitems]
    exact h.fcount.symm
  · rfl

theorem addInternal_of_mem {c : Container} {x : Nat} (h : x ∈ c.selectedSet) :
    addFishToSelectedInternal x c = c := by
  unfold addFishToSelectedInternal
  rw [if_pos ((contains_iff_mem c.selectedSet x).mpr h)]

/-! Sums of values and id projections of the rendered list. -/

theorem renderModel_cons (cat : List FishData) (a : Nat) (t : List Nat) :
    renderModel cat (a :: t) = renderOne cat a ++ renderModel cat t := by
  have := renderModel_append cat [a] t
  simpa [renderModel_singleton] using this

/-- `base_value` of a selected id per the catalog; an id with no catalog
entry contributes nothing. -/
def sumBaseValues (cat : List FishData) (ids : List Nat) : Int :=
  (ids.map (fun id => ((cat.find? (fun f => f.fishId == id)).map
    (fun f => f.baseValue)).getD 0)).sum

theorem sum_renderModel (cat : List FishData) : ∀ (l : List Nat),
    ((renderModel cat l).map (fun it => it.value)).sum = sumBaseValues cat l := by
  intro l
  induction l with
  | nil => rfl
  | cons a t ih =>
      rw [renderModel_cons]
      simp only [List.map_append, List.sum_append, sumBaseValues, List.map_cons,
        List.sum_cons]
      rw [show ((renderModel cat t).map (fun it => it.value)).sum =
        sumBaseValues cat t from ih]
      unfold renderOne
      cases hf : cat.find? (fun f => f.fishId == a) with
      | none => simp [sumBaseValues]
      | some f => simp [mkSelItem, sumBaseValues]

theorem find?_isSome_of_mem_ids {cat : List FishData} {a : Nat}
    (h : a ∈ cat.map (fun f => f.fishId)) :
    ∃ f, cat.find? (fun f => f.fishId == a) = some f := by
  obtain ⟨f, hf, hfa⟩ := List.mem_map.mp h
  have : (cat.find? (fun f => f.fishId == a)).isSome := by
    rw [List.find?_isSome]
    exact ⟨f, hf, by simpa using hfa⟩
  exact Option.isSome_iff_exists.mp this

theorem map_fishId_renderModel (cat : List FishData) : ∀ {l : List Nat},
    (∀ id ∈ l, id ∈ cat.map (fun f => f.fishId)) →
    (renderModel cat l).map (fun it => it.fishId) = l := by
  intro l
  induction l with
  | nil => intro _; rfl
  | cons a t ih =>
      intro h
      obtain ⟨f, hf⟩ := find?_isSome_of_mem_ids (h a (List.mem_cons_self a t))
      have hfa : f.fishId = a := by simpa using List.find?_some hf
      rw [renderModel_cons]
      have hone : renderOne cat a = [mkSelItem f] := by
        unfold renderOne
        rw [hf]
        rfl
      rw [hone, List.singleton_append, List.map_cons,
        ih (fun id hid => h id (List.mem_cons_of_mem a hid)),
        show (mkSelItem f).fishId = a from hfa]

/-! Which ids an operation may introduce into the set. -/

/-- The ids an operation passes to the add path all belong to the catalog:
`addFishToSelected` is invoked by the UI only with ids read off candidate
rows, and an initialization is catalog-conforming when the zone's stored
ids all still exist. -/
def opIdsOk (cat : List Nat) : Op → Bool
  | .add x => cat.contains x
  | .remove _ => true
  | .clear => true
  | .init ids => ids.all (fun id => cat.contains id)

theorem catalogIds_runOp (op : Op) (c : Container) :
    catalogIds (runOp op c) = catalogIds c := by
  simp [catalogIds, catalog_runOp]

theorem subset_runOp {c : Container} {op : Op}
    (hsub : ∀ id ∈ c.selectedSet, id ∈ catalogIds c)
    (hop : opIdsOk (catalogIds c) op = true) :
    ∀ id ∈ (runOp op c).selectedSet, id ∈ catalogIds (runOp op c) := by
  intro y hy
  rw [catalogIds_runOp]
  cases op with
  | add x =>
      rw [show runOp (Op.add x) c = addFishToSelected x c from rfl,
        selectedSet_addFishToSelected] at hy
      rcases mem_setAdd.mp hy with hm | rfl
      · exact hsub y hm
      · exact (contains_iff_mem _ y).mp hop
  | remove x =>
      rw [show runOp (Op.remove x) c = removeFishFromSelected x c from rfl,
        selectedSet_removeFishFromSelected] at hy
      exact hsub y (mem_setDelete.mp hy).1
  | clear =>
      exact hsub y (mem_selectedSet_clearAll hy)
  | init ids =>
      rw [show runOp (Op.init ids) c = initializeSelectedFish ids c from rfl,
        selectedSet_initializeSelectedFish] at hy
      rcases (mem_foldl_setAdd ids [] y).mp hy with hm | hm
      · exact absurd hm (List.not_mem_nil y)
      · exact (contains_iff_mem _ y).mp (List.all_eq_true.mp hop y hm)

theorem subset_runOps (ops : List Op) : ∀ (c : Container),
    (∀ id ∈ c.selectedSet, id ∈ catalogIds c) →
    (∀ op ∈ ops, opIdsOk (catalogIds c) op = true) →
    ∀ id ∈ (runOps ops c).selectedSet, id ∈ catalogIds (runOps ops c) := by
  induction ops with
  | nil => intro c hsub _; exact hsub
  | cons op rest ih =>
      intro c hsub hops
      have hop : opIdsOk (catalogIds c) op = true := hops op (List.mem_cons_self op rest)
      have hstep := subset_runOp hsub hop
      have hrest : ∀ o ∈ rest, opIdsOk (catalogIds (runOp op c)) o = true := by
        intro o ho
        rw [catalogIds_runOp]
        exact hops o (List.mem_cons_of_mem op ho)
      exact ih (runOp op c) hstep hrest

/-! Tri-state logic of the rarity header checkbox. -/

theorem length_filter_eq_iff_all {α : Type} (p : α → Bool) (l : List α) :
    (l.filter p).length = l.length ↔ ∀ a ∈ l, p a = true := by
  constructor
  · intro h
    have := List.Sublist.eq_of_length (List.filter_sublist l) h
    intro a ha
    rw [← this] at ha
    exact List.of_mem_filter ha
  · intro h
    rw [List.filter_eq_self.mpr h]

theorem pos_length_filter_iff {α : Type} (p : α → Bool) (l : List α) :
    0 < (l.filter p).length ↔ ∃ a ∈ l, p a = true := by
  rw [List.length_pos]
  constructor
  · intro h
    cases hf : l.filter p with
    | nil => exact absurd hf h
    | cons b t =>
        have hb : b ∈ l.filter p := by rw [hf]; exact List.mem_cons_self b t
        exact ⟨b, List.mem_of_mem_filter hb, List.of_mem_filter hb⟩
  · rintro ⟨a, ha, hpa⟩ hnil
    have : a ∈ l.filter p := List.mem_filter.mpr ⟨ha, hpa⟩
    rw [hnil] at this
    exact List.not_mem_nil a this

theorem totalItems_updateRarityCheckboxState (r : Nat) (c : Container) :
    (updateRarityCheckboxState r c).totalItems = c.totalItems := by
  unfold updateRarityCheckboxState
  split <;> rfl

theorem find?_headers_update (r : Nat) (st : Bool × Bool) :
    ∀ (hs : List (Nat × Bool × Bool)),
      ((hs.find? (fun h => h.1 == r)).isSome) →
      (((hs.map (fun h => if h.1 == r then (h.1, st) else h)).find?
        (fun h => h.1 == r)).map (fun h => h.2)) = some st := by
  intro hs
  induction hs with
  | nil => intro h; simp at h
  | cons e t ih =>
      intro hsome
      by_cases he : (e.1 == r) = true
      · rw [List.map_cons, if_pos he]
        rw [@List.find?_cons_of_pos _ (fun h => h.1 == r) (e.1, st)
          (t.map (fun h => if h.1 == r then (h.1, st) else h)) he]
        rfl
      · rw [List.map_cons, if_neg he]
        rw [@List.find?_cons_of_neg _ (fun h => h.1 == r) e
          (t.map (fun h => if h.1 == r then (h.1, st) else h)) he]
        apply ih
        rw [@List.find?_cons_of_neg _ (fun h => h.1 == r) e t he] at hsome
        exact hsome

theorem headerFor_update {c : Container} {r : Nat}
    (h : (headerFor c r).isSome) :
    headerFor (updateRarityCheckboxState r c) r = some (headerStateFor c r) := by
  have hsome : ((c.rarityHeaders.find? (fun h => h.1 == r)).isSome) := by
    unfold headerFor at h
    simpa using h
  unfold updateRarityCheckboxState
  rw [if_pos hsome]
  show (((c.rarityHeaders.map (fun h => if h.1 == r then (h.1, headerStateFor c r) else h)).find?
      (fun h => h.1 == r)).map (fun h => h.2)) = some (headerStateFor c r)
  exact find?_headers_update r (headerStateFor c r) c.rarityHeaders hsome

theorem headerStateFor_checked_iff (c : Container) (r : Nat) :
    (headerStateFor c r).1 = true ↔
      (visibleOfRarity c r ≠ [] ∧ ∀ it ∈ visibleOfRarity c r, it.checked = true) := by
  unfold headerStateFor
  by_cases hemp : visibleOfRarity c r = []
  · rw [hemp]
    simp
  · rw [if_pos (List.length_pos.mpr hemp)]
    show ((visibleOfRarity c r).length ==
      ((visibleOfRarity c r).filter (fun it => it.checked)).length) = true ↔ _
    rw [beq_iff_eq]
    constructor
    · intro h
      exact ⟨hemp, (length_filter_eq_iff_all _ _).mp h.symm⟩
    · rintro ⟨-, hall⟩
      exact ((length_filter_eq_iff_all _ _).mpr hall).symm

theorem headerStateFor_indet_iff (c : Container) (r : Nat) :
    (headerStateFor c r).2 = true ↔
      ((∃ it ∈ visibleOfRarity c r, it.checked = true) ∧
        ¬ ∀ it ∈ visibleOfRarity c r, it.checked = true) := by
  unfold headerStateFor
  by_cases hemp : visibleOfRarity c r = []
  · rw [hemp]
    simp
  · rw [if_pos (List.length_pos.mpr hemp)]
    show (decide (((visibleOfRarity c r).filter (fun it => it.checked)).length > 0) &&
      decide (((visibleOfRarity c r).filter (fun it => it.checked)).length <
        (visibleOfRarity c r).length)) = true ↔ _
    rw [Bool.and_eq_true, decide_eq_true_iff, decide_eq_true_iff]
    constructor
    · rintro ⟨h1, h2⟩
      refine ⟨(pos_length_filter_iff _ _).mp h1, fun hall => ?_⟩
      have := (length_filter_eq_iff_all (fun it => it.checked)
        (visibleOfRarity c r)).mpr hall
      omega
    · rintro ⟨hex, hnall⟩
      refine ⟨(pos_length_filter_iff _ _).mpr hex, ?_⟩
      have hle := List.length_filter_le (fun it => it.checked) (visibleOfRarity c r)
      have hne : ((visibleOfRarity c r).filter (fun it => it.checked)).length ≠
          (visibleOfRarity c r).length :=
        fun h => hnall ((length_filter_eq_iff_all _ _).mp h)
      omega

/-! Isolation of per-container stores. -/

theorem find?_storeMap (k : Nat) (f : List Nat → List Nat) (k2 : Nat) :
    ∀ (store : SelStore),
      (store.map (fun e => if e.1 == k then (e.1, f e.2) else e)).find? (fun e => e.1 == k2) =
        (store.find? (fun e => e.1 == k2)).map (fun e => if e.1 == k then (e.1, f e.2) else e) := by
  intro store
  induction store with
  | nil => rfl
  | cons e t ih =>
      have hkey : ((if e.1 == k then (e.1, f e.2) else e).1 == k2) = (e.1 == k2) := by
        split <;> rfl
      by_cases he : (e.1 == k2) = true
      · rw [List.map_cons,
          @List.find?_cons_of_pos _ (fun e => e.1 == k2) (if e.1 == k then (e.1, f e.2) else e)
            (t.map (fun e => if e.1 == k then (e.1, f e.2) else e)) (hkey.trans he),
          @List.find?_cons_of_pos _ (fun e => e.1 == k2) e t he]
        rfl
      · rw [List.map_cons,
          @List.find?_cons_of_neg _ (fun e => e.1 == k2) (if e.1 == k then (e.1, f e.2) else e)
            (t.map (fun e => if e.1 == k then (e.1, f e.2) else e)) (by simp only [hkey]; exact he),
          @List.find?_cons_of_neg _ (fun e => e.1 == k2) e t he]
        exact ih

theorem find?_append_singleton_ne (x : Nat × List Nat) (k2 : Nat)
    (hx : ¬ (x.1 == k2) = true) : ∀ (l : SelStore),
    (l ++ [x]).find? (fun e => e.1 == k2) = l.find? (fun e => e.1 == k2) := by
  intro l
  induction l with
  | nil =>
      show List.find? (fun e => e.1 == k2) [x] = none
      rw [@List.find?_cons_of_neg _ (fun e => e.1 == k2) x [] hx]
      rfl
  | cons e t ih =>
      by_cases he : (e.1 == k2) = true
      · rw [List.cons_append,
          @List.find?_cons_of_pos _ (fun e => e.1 == k2) e (t ++ [x]) he,
          @List.find?_cons_of_pos _ (fun e => e.1 == k2) e t he]
      · rw [List.cons_append,
          @List.find?_cons_of_neg _ (fun e => e.1 == k2) e (t ++ [x]) he,
          @List.find?_cons_of_neg _ (fun e => e.1 == k2) e t he]
        exact ih

theorem storeGet_storeModify_ne {store : SelStore} {k k2 : Nat} (hne : k ≠ k2)
    (f : List Nat → List Nat) :
    storeGet (storeModify store k f) k2 = storeGet store k2 := by
  unfold storeModify
  cases hf : store.find? (fun e => e.1 == k) with
  | none =>
      unfold storeGet
      rw [find?_append_singleton_ne (k, f []) k2 (by simpa using hne) store]
  | some e =>
      unfold storeGet
      rw [find?_storeMap k f k2 store]
      cases hf2 : store.find? (fun e => e.1 == k2) with
      | none => rfl
      | some e2 =>
          have he2p := List.find?_some hf2
          have he2 : (e2.1 == k2) = true := he2p
          have he2k : (e2.1 == k) = false := by
            have : e2.1 = k2 := by simpa using he2
            simp [this]
            exact fun hk => hne hk.symm
          simp only [Option.map_some']
          rw [if_neg (by simp [he2k])]

theorem strToLower_eq_empty_iff (s : String) : strToLower s = "" ↔ s = "" := by
  cases s with
  | mk data =>
      simp [strToLower, String.ext_iff]

/-! Concrete fixtures used by the witnesses and counterexamples below. -/

/-- A catalog fish: id 1, one star, value 100. -/
def fishA : FishData := { fishId := 1, name := "Carp", rarity := 1, baseValue := 100 }

/-- A catalog fish: id 2, two stars, value 500. -/
def fishB : FishData := { fishId := 2, name := "Tuna", rarity := 2, baseValue := 500 }

/-- A freshly rendered dialog with a two-fish catalog. -/
def cBase : Container :=
  { totalItems := [ { fish := fishA, visible := true, checked := false },
      { fish := fishB, visible := true, checked := false } ],
    selectedSet := [], selectedItems := [],
    rarityHeaders := [(1, false, false), (2, false, false)],
    searchTerm := "", rarityFilterVal := "", selectedCountText := 0, totalValueText := 0,
    hiddenIds := [], totalFishCountText := 2, emptyMsgVisible := true }

/-- A dialog whose candidate list is empty but which still renders a rarity
header (no candidate row carries id 99 here either). -/
def cNoCatalog : Container :=
  { totalItems := [], selectedSet := [], selectedItems := [],
    rarityHeaders := [(1, false, false)],
    searchTerm := "", rarityFilterVal := "", selectedCountText := 0, totalValueText := 0,
    hiddenIds := [], totalFishCountText := 0, emptyMsgVisible := true }

/-- `cBase` with a search term entered and fish 2 selected. -/
def cSearch : Container :=
  { cBase with searchTerm := "CAR", selectedSet := [2] }

/-- The candidate row for `fishA` after the filter leaves it visible. -/
def itemCarp : TotalItem := { fish := fishA, visible := true, checked := false }

/-- A form whose six rarity inputs are all empty (each parses to `NaN`,
counted as 0, so the distribution sums to 0). -/
def fs0 : FormState :=
  { idInput := none, nameInput := "", descriptionInput := "",
    dailyRareFishQuota := none, fishingCost := none, isActive := true,
    limitTime := false, availableFrom := "", availableUntil := "",
    rarityInputs := [none, none, none, none, none, none],
    requiresPass := false, requiredItemId := none }

/-!
The claims.
-/

/-- C1 (amended): for every sequence of selection operations (add, remove,
clear, initialize) on an initialized dialog container, provided every id
passed to an add or initialize operation has a matching candidate row in
the catalog, the per-container selected set and the rendered selected list
stay in one-to-one correspondence: the rendered rows' ids, in order, are
exactly the selected set, which is duplicate-free — no duplicate rows and
no orphans on either side. -/
theorem selection_one_to_one (ids0 : List Nat) (ops : List Op) (c : Container)
    (hids : ∀ id ∈ ids0, id ∈ catalogIds c)
    (hops : ∀ op ∈ ops, opIdsOk (catalogIds c) op = true) :
    (runOps ops (initializeSelectedFish ids0 c)).selectedItems.map (fun it => it.fishId) =
      (runOps ops (initializeSelectedFish ids0 c)).selectedSet ∧
    (runOps ops (initializeSelectedFish ids0 c)).selectedSet.Nodup := by
  have hcat : catalogIds (initializeSelectedFish ids0 c) = catalogIds c := by
    simp [catalogIds, catalog_initializeSelectedFish]
  have hInv : Inv (runOps ops (initializeSelectedFish ids0 c)) :=
    inv_runOps ops (inv_initializeSelectedFish ids0 c)
  have hsub0 : ∀ id ∈ (initializeSelectedFish ids0 c).selectedSet,
      id ∈ catalogIds (initializeSelectedFish ids0 c) := by
    intro y hy
    rw [selectedSet_initializeSelectedFish] at hy
    rcases (mem_foldl_setAdd ids0 [] y).mp hy with hm | hm
    · exact absurd hm (List.not_mem_nil y)
    · rw [hcat]
      exact hids y hm
  have hops2 : ∀ op ∈ ops, opIdsOk (catalogIds (initializeSelectedFish ids0 c)) op = true := by
    intro op hop
    rw [hcat]
    exact hops op hop
  have hsub := subset_runOps ops (initializeSelectedFish ids0 c) hsub0 hops2
  refine ⟨?_, hInv.nodup⟩
  rw [hInv.items]
  exact map_fishId_renderModel _ (fun id hid => hsub id hid)

/-- C1 witness: initialize with fish 1, add fish 2, remove fish 1 on the
two-fish catalog; the rendered ids equal the set and it is duplicate-free. -/
theorem selection_one_to_one_witness :
    (runOps [Op.add 2, Op.remove 1] (initializeSelectedFish [1] cBase)).selectedItems.map
        (fun it => it.fishId) =
      (runOps [Op.add 2, Op.remove 1] (initializeSelectedFish [1] cBase)).selectedSet ∧
    (runOps [Op.add 2, Op.remove 1] (initializeSelectedFish [1] cBase)).selectedSet.Nodup :=
  selection_one_to_one [1] [Op.add 2, Op.remove 1] cBase (by decide) (by decide)

/-- C1 counterexample to the claim as stated: initializing with id 99,
which has no candidate row, keeps 99 in the selected set but renders no
row for it, so the set and the rendered list are not in one-to-one
correspondence. -/
theorem selection_one_to_one_counterexample :
    ¬ ((runOps [Op.init [99]] cNoCatalog).selectedItems.map (fun it => it.fishId) =
        (runOps [Op.init [99]] cNoCatalog).selectedSet) := by
  decide

/-- C2: after any `addFishToSelected`, and after any `removeFishFromSelected`
on a container whose hidden `specific_fish_ids` input already agrees with
the set (a removal of a non-member is an early return that rewrites
nothing), the hidden input's id list is exactly the selected set — the
serialization is `Array.from(set).join(',')`, so its ids equal the set
regardless of order (here they are equal as lists outright). -/
theorem hidden_ids_match_selected_set (x : Nat) (c : Container)
    (h : c.hiddenIds = c.selectedSet) :
    (addFishToSelected x c).hiddenIds = (addFishToSelected x c).selectedSet ∧
    (removeFishFromSelected x c).hiddenIds = (removeFishFromSelected x c).selectedSet := by
  constructor
  · rfl
  · unfold removeFishFromSelected
    split
    · rfl
    · exact h

/-- C2 witness: adding fish 1 and removing absent fish 7 on the fresh
dialog keep the hidden id list equal to the set. -/
theorem hidden_ids_match_selected_set_witness :
    (addFishToSelected 1 cBase).hiddenIds = (addFishToSelected 1 cBase).selectedSet ∧
    (removeFishFromSelected 1 cBase).hiddenIds =
      (removeFishFromSelected 1 cBase).selectedSet :=
  hidden_ids_match_selected_set 1 cBase (by decide)

/-- C3: a submission whose six rarity inputs (parsed, empty or unparseable
counting as 0) sum to a value deviating from 1 by more than 1e-4 is
answered with the client-side error alert and returns before the `fetch`:
no request is issued and both the container (selection state included) and
the form's inputs are returned unchanged. -/
theorem submit_rejects_bad_distribution (zoneId : Option Nat) (fs : FormState) (c : Container)
    (_hlen : fs.rarityInputs.length = 6)
    (hdev : (1 : ℚ) / 10000 < |(fs.rarityInputs.map jsOrZero).sum - 1|) :
    handleSubmit zoneId fs c = (SubmitResult.clientError "稀有度分布总和必须为 1", c, fs) := by
  unfold handleSubmit
  rw [if_pos hdev]

/-- C3 witness: submitting the form with all six rarity inputs empty (sum
0, deviation 1) is rejected client-side with no state change. -/
theorem submit_rejects_bad_distribution_witness :
    handleSubmit none fs0 cBase =
      (SubmitResult.clientError "稀有度分布总和必须为 1", cBase, fs0) :=
  submit_rejects_bad_distribution none fs0 cBase (by decide) (by norm_num [fs0, jsOrZero])

/-- C4: on a consistent container (the invariant every initialized dialog
maintains), adding a fish id that is already selected changes nothing at
all — the whole container state, hence in particular the selected set, the
rendered selected list, the displayed count, the displayed total value and
the hidden serialized id list, is unchanged. -/
theorem add_selected_idempotent {c : Container} (x : Nat) (h : Inv c)
    (hx : x ∈ c.selectedSet) :
    addFishToSelected x c = c := by
  unfold addFishToSelected
  rw [addInternal_of_mem hx, updateSelectedStats_of_inv h, filterFishOptions_of_inv h]

/-- C4 witness: re-adding fish 1 after initializing with it is a no-op. -/
theorem add_selected_idempotent_witness :
    addFishToSelected 1 (initializeSelectedFish [1] cBase) =
      initializeSelectedFish [1] cBase :=
  add_selected_idempotent 1 (inv_initializeSelectedFish [1] cBase) (by decide)

/-- C5: removing a fish id that is not in the container's selected set is
an early return: the whole container state, hence in particular the
selected set, the rendered selected list, the displayed count, the
displayed total value and the hidden serialized id list, is unchanged. -/
theorem remove_nonselected_noop (x : Nat) (c : Container) (h : x ∉ c.selectedSet) :
    removeFishFromSelected x c = c := by
  unfold removeFishFromSelected
  rw [if_neg (by simpa [contains_iff_mem] using h)]

/-- C5 witness: removing never-selected fish 7 from the fresh dialog
changes nothing. -/
theorem remove_nonselected_noop_witness :
    removeFishFromSelected 7 cBase = cBase :=
  remove_nonselected_noop 7 cBase (by decide)

/-- C6: after any add or remove on a consistent container, the displayed
total value equals the sum of the `data-value` attributes of the rows
rendered in the selected list, which in turn equals the sum of the base
values of the selected fish ids per the catalog (an id with no catalog
entry renders no row and contributes no base value). -/
theorem total_value_matches (x : Nat) {c : Container} (h : Inv c) :
    ((addFishToSelected x c).totalValueText =
        ((addFishToSelected x c).selectedItems.map (fun it => it.value)).sum ∧
      ((addFishToSelected x c).selectedItems.map (fun it => it.value)).sum =
        sumBaseValues (catalog (addFishToSelected x c)) (addFishToSelected x c).selectedSet) ∧
    ((removeFishFromSelected x c).totalValueText =
        ((removeFishFromSelected x c).selectedItems.map (fun it => it.value)).sum ∧
      ((removeFishFromSelected x c).selectedItems.map (fun it => it.value)).sum =
        sumBaseValues (catalog (removeFishFromSelected x c))
          (removeFishFromSelected x c).selectedSet) := by
  have ha := inv_addFishToSelected h x
  have hr := inv_removeFishFromSelected h x
  exact ⟨⟨ha.total, by rw [ha.items, sum_renderModel]⟩,
    ⟨hr.total, by rw [hr.items, sum_renderModel]⟩⟩

/-- C6 witness: after adding fish 2 to (and after removing it from) the
initialized dialog, the displayed total matches the rendered values and
the catalog base values. -/
theorem total_value_matches_witness :
    ((addFishToSelected 2 (initializeSelectedFish [1] cBase)).totalValueText =
        ((addFishToSelected 2 (initializeSelectedFish [1] cBase)).selectedItems.map
          (fun it => it.value)).sum ∧
      ((addFishToSelected 2 (initializeSelectedFish [1] cBase)).selectedItems.map
          (fun it => it.value)).sum =
        sumBaseValues (catalog (addFishToSelected 2 (initializeSelectedFish [1] cBase)))
          (addFishToSelected 2 (initializeSelectedFish [1] cBase)).selectedSet) ∧
    ((removeFishFromSelected 2 (initializeSelectedFish [1] cBase)).totalValueText =
        ((removeFishFromSelected 2 (initializeSelectedFish [1] cBase)).selectedItems.map
          (fun it => it.value)).sum ∧
      ((removeFishFromSelected 2 (initializeSelectedFish [1] cBase)).selectedItems.map
          (fun it => it.value)).sum =
        sumBaseValues
          (catalog (removeFishFromSelected 2 (initializeSelectedFish [1] cBase)))
          (removeFishFromSelected 2 (initializeSelectedFish [1] cBase)).selectedSet) :=
  total_value_matches 2 (inv_initializeSelectedFish [1] cBase)

/-- C7 (amended): after `updateRarityCheckboxState` runs for a rarity tier
whose header checkbox exists, that checkbox is checked iff the tier has at
least one visible candidate row and every visible row of the tier is
checked (with zero visible rows the code unchecks it, although "all
visible rows checked" would hold vacuously), and it is indeterminate iff
some but not all visible rows of the tier are checked. -/
theorem rarity_tristate_amended (c : Container) (r : Nat)
    (h : (headerFor c r).isSome) :
    ∀ st, headerFor (updateRarityCheckboxState r c) r = some st →
      ((st.1 = true ↔
        (visibleOfRarity (updateRarityCheckboxState r c) r ≠ [] ∧
          ∀ it ∈ visibleOfRarity (updateRarityCheckboxState r c) r, it.checked = true)) ∧
       (st.2 = true ↔
        ((∃ it ∈ visibleOfRarity (updateRarityCheckboxState r c) r, it.checked = true) ∧
          ¬ ∀ it ∈ visibleOfRarity (updateRarityCheckboxState r c) r, it.checked = true))) := by
  intro st hst
  have hvis : visibleOfRarity (updateRarityCheckboxState r c) r = visibleOfRarity c r := by
    simp [visibleOfRarity, totalItems_updateRarityCheckboxState]
  rw [headerFor_update h] at hst
  have hst2 : st = headerStateFor c r := (Option.some.injEq _ _ ▸ hst).symm
  subst hst2
  rw [hvis]
  exact ⟨headerStateFor_checked_iff c r, headerStateFor_indet_iff c r⟩

/-- C7 witness: on the initialized two-fish dialog with fish 1 checked
nowhere, the rarity-1 header is unchecked and not indeterminate, matching
the amended tri-state. -/
theorem rarity_tristate_amended_witness :
    (headerStateFor cBase 1).1 = true ↔
      (visibleOfRarity (updateRarityCheckboxState 1 cBase) 1 ≠ [] ∧
        ∀ it ∈ visibleOfRarity (updateRarityCheckboxState 1 cBase) 1, it.checked = true) :=
  (rarity_tristate_amended cBase 1 (by decide) (headerStateFor cBase 1)
    (headerFor_update (by decide))).1

/-- C7 counterexample to the claim as stated: with zero visible rows of
rarity 1, the code sets the header to unchecked, while "every visible row
of the tier is checked" holds vacuously — the claimed equivalence,
required to hold for every count of visible rows including zero, fails. -/
theorem rarity_tristate_counterexample :
    ¬ (∀ st, headerFor (updateRarityCheckboxState 1 cNoCatalog) 1 = some st →
        (st.1 = true ↔
          ∀ it ∈ visibleOfRarity (updateRarityCheckboxState 1 cNoCatalog) 1,
            it.checked = true)) := by
  decide

/-- C8: any selection operation performed against one container's set in
the `WeakMap` store leaves the set associated with every other container
unchanged: the store is keyed per container. -/
theorem per_container_isolation (store : SelStore) (k k2 : Nat) (op : Op)
    (h : k ≠ k2) :
    storeGet (storeRunOp store k op) k2 = storeGet store k2 :=
  storeGet_storeModify_ne h (setEffect op)

/-- C8 witness: adding fish 9 for container 2 leaves container 1's stored
set untouched. -/
theorem per_container_isolation_witness :
    storeGet (storeRunOp [(1, [5])] 2 (Op.add 9)) 1 = storeGet [(1, [5])] 1 :=
  per_container_isolation [(1, [5])] 2 1 (Op.add 9) (by decide)

/-- C9: after `filterFishOptions` runs, a candidate row is visible iff its
lowercased name contains the lowercased search term (or the term is
empty), its rarity equals the filter value (or the filter is empty), and
its fish id is not in the selected set; and the displayed candidate count
equals the number of visible rows. -/
theorem filter_visibility (c : Container) :
    (∀ it ∈ (filterFishOptions c).totalItems,
      (it.visible = true ↔
        ((strIncludes (strToLower it.fish.name) (strToLower c.searchTerm) = true ∨
            c.searchTerm = "") ∧
         (toString it.fish.rarity = c.rarityFilterVal ∨ c.rarityFilterVal = "") ∧
         it.fish.fishId ∉ c.selectedSet))) ∧
    (filterFishOptions c).totalFishCountText =
      ((filterFishOptions c).totalItems.filter (fun it => it.visible)).length := by
  constructor
  · intro it hit
    simp only [filterFishOptions, List.mem_map] at hit
    obtain ⟨j, hj, rfl⟩ := hit
    show visPred c.selectedSet c.searchTerm c.rarityFilterVal j.fish = true ↔ _
    unfold visPred
    simp only [Bool.and_eq_true, Bool.or_eq_true, beq_iff_eq, Bool.not_eq_true']
    rw [strToLower_eq_empty_iff]
    rw [show (c.selectedSet.contains j.fish.fishId = false) ↔
      j.fish.fishId ∉ c.selectedSet from by
        rw [← Bool.not_eq_true, not_iff_not, contains_iff_mem]]
    exact and_assoc
  · rfl

/-- C9 witness: with search term "CAR" and fish 2 selected, the Carp row is
visible, matching the predicate, and the count matches. -/
theorem filter_visibility_witness :
    (itemCarp.visible = true ↔
      ((strIncludes (strToLower itemCarp.fish.name) (strToLower cSearch.searchTerm) = true ∨
          cSearch.searchTerm = "") ∧
       (toString itemCarp.fish.rarity = cSearch.rarityFilterVal ∨
          cSearch.rarityFilterVal = "") ∧
       itemCarp.fish.fishId ∉ cSearch.selectedSet)) ∧
    (filterFishOptions cSearch).totalFishCountText =
      ((filterFishOptions cSearch).totalItems.filter (fun it => it.visible)).length :=
  ⟨(filter_visibility cSearch).1 itemCarp (by decide), (filter_visibility cSearch).2⟩

/-- C10: after `initializeSelectedFish` with any id list, the selected set
is the deduplicated set of those ids (duplicate-free, containing exactly
them), the hidden serialized list is exactly that set — so every given id,
including ids with no catalog row, appears in it — while no row is
rendered for an id without a catalog entry. -/
theorem initialize_keeps_unknown_ids (ids : List Nat) (c : Container) :
    (initializeSelectedFish ids c).selectedSet.Nodup ∧
    (∀ x, x ∈ (initializeSelectedFish ids c).selectedSet ↔ x ∈ ids) ∧
    (initializeSelectedFish ids c).hiddenIds = (initializeSelectedFish ids c).selectedSet ∧
    (∀ x ∈ ids, x ∈ (initializeSelectedFish ids c).hiddenIds) ∧
    (∀ x ∈ (initializeSelectedFish ids c).selectedSet, x ∉ catalogIds c →
      ∀ it ∈ (initializeSelectedFish ids c).selectedItems, it.fishId ≠ x) := by
  have hInv := inv_initializeSelectedFish ids c
  have hset := selectedSet_initializeSelectedFish ids c
  have hmem : ∀ x, x ∈ (initializeSelectedFish ids c).selectedSet ↔ x ∈ ids := by
    intro x
    rw [hset, mem_foldl_setAdd]
    simp
  refine ⟨hInv.nodup, hmem, hInv.hidden, ?_, ?_⟩
  · intro x hx
    rw [hInv.hidden]
    exact (hmem x).mpr hx
  · intro x hx hxcat it hit hcontra
    rw [hInv.items] at hit
    have hidcat := (mem_renderModel hit).2.1
    apply hxcat
    rw [← hcontra]
    show it.fishId ∈ catalogIds c
    have : catalogIds (initializeSelectedFish ids c) = catalogIds c := by
      simp [catalogIds, catalog_initializeSelectedFish]
    rw [← this]
    exact hidcat

/-- C10 witness: initializing with ids 1, 1 and 99 on the two-fish dialog
dedups to a set containing 99, serializes 99 into the hidden list, and
(checked separately) renders no row for it. -/
theorem initialize_keeps_unknown_ids_witness :
    (99 ∈ (initializeSelectedFish [1, 1, 99] cBase).hiddenIds) ∧
    (initializeSelectedFish [1, 1, 99] cBase).hiddenIds =
      (initializeSelectedFish [1, 1, 99] cBase).selectedSet :=
  ⟨(initialize_keeps_unknown_ids [1, 1, 99] cBase).2.2.2.1 99 (by decide),
   (initialize_keeps_unknown_ids [1, 1, 99] cBase).2.2.1⟩

end ZoneFishSelection
